import Mathlib

/-!
# Verification of the Slite integration layer

Shallow embedding, in Lean 4, of the core components of the Slite
note-management integration:

* `src/utils.py` — `RateLimiter`, `retry_with_backoff`, `Cache`;
* `src/exceptions.py` — the exception taxonomy (`PyExc` below);
* `src/slite_api.py` — `SliteAPI._make_request` response classification;
* `src/note_manager.py` — the `NoteManager` registry operations
  (`create_note`, `update_note`, `delete_note`, `create_folder`,
  `delete_folder`, `get_folder_path`).

Python dictionaries are embedded as association lists in insertion order
(`look`, `dictSet`, `dictErase` mirror `d[k]`, `d[k] = v`, `del d[k]`);
Python `float` timestamps are embedded as `ℚ`; exceptions are embedded by
returning `Except PyExc _`, and in-place mutation of `self` by explicit
state passing (functions return the post-call state together with the
Python return value, since a raised exception does not roll back earlier
in-place mutations).  Remote HTTP calls made through `self.api` are
parameters of the embedded operations: an `Except PyExc _` value describes
what the remote call would have returned or raised, and an
`Except PyExc Unit` parameter likewise describes the outcome of the
file-write in `_save_registry` / `_save_folders_registry`.
-/

/-! ## Python dictionary primitives -/

/-- `d.get(k)` / `d[k]` on a Python dict embedded as an association list
in insertion order (first binding wins; dict keys are unique anyway). -/
def look {α : Type} : List (String × α) → String → Option α
  | [], _ => none
  | (k', v) :: rest, k => if k' = k then some v else look rest k

/-- `d[k] = v` on a Python dict: overwrite the existing binding in place,
or append a fresh binding at the end (insertion order). -/
def dictSet {α : Type} : List (String × α) → String → α → List (String × α)
  | [], k, v => [(k, v)]
  | (k', v') :: rest, k, v =>
    if k' = k then (k, v) :: rest else (k', v') :: dictSet rest k v

/-- `del d[k]` on a Python dict: drop the binding (call sites in the source
guard the deletion with a membership test). -/
def dictErase {α : Type} : List (String × α) → String → List (String × α)
  | [], _ => []
  | (k', v') :: rest, k =>
    if k' = k then rest else (k', v') :: dictErase rest k

/-- `list.remove(x)`: remove the first occurrence of `x`. -/
def listRemove : List String → String → List String
  | [], _ => []
  | y :: rest, x => if y = x then rest else y :: listRemove rest x

theorem look_mem {α : Type} {l : List (String × α)} {k : String} {v : α}
    (h : look l k = some v) : (k, v) ∈ l := by
  induction l with
  | nil => simp [look] at h
  | cons p rest ih =>
    obtain ⟨k', v'⟩ := p
    by_cases hk : k' = k
    · simp [look, hk] at h
      simp [hk, h]
    · simp [look, hk] at h
      exact List.mem_cons_of_mem _ (ih h)

theorem look_isSome_mem_keys {α : Type} {l : List (String × α)} {k : String}
    (h : (look l k).isSome) : k ∈ l.map Prod.fst := by
  obtain ⟨v, hv⟩ := Option.isSome_iff_exists.mp h
  exact List.mem_map.mpr ⟨(k, v), look_mem hv, rfl⟩

theorem look_concat_ne {α : Type} (l : List (String × α)) (kp : String) (vp : α)
    (k : String) (hk : k ≠ kp) : look (l ++ [(kp, vp)]) k = look l k := by
  induction l with
  | nil => simp [look, Ne.symm hk]
  | cons q rest ih =>
    obtain ⟨k', v'⟩ := q
    by_cases hq : k' = k
    · simp [look, hq]
    · simp [look, hq, ih]

theorem look_concat_self {α : Type} {l : List (String × α)} {k : String}
    (h : look l k = none) (v : α) : look (l ++ [(k, v)]) k = some v := by
  induction l with
  | nil => simp [look]
  | cons q rest ih =>
    obtain ⟨k', v'⟩ := q
    by_cases hq : k' = k
    · simp [look, hq] at h
    · simp [look, hq] at h ⊢
      exact ih h

theorem dictSet_of_look_none {α : Type} {l : List (String × α)} {k : String}
    (h : look l k = none) (v : α) : dictSet l k v = l ++ [(k, v)] := by
  induction l with
  | nil => simp [dictSet]
  | cons q rest ih =>
    obtain ⟨k', v'⟩ := q
    by_cases hq : k' = k
    · simp [look, hq] at h
    · simp [look, hq] at h
      simp [dictSet, hq, ih h]

theorem look_dictSet_self {α : Type} (l : List (String × α)) (k : String) (v : α) :
    look (dictSet l k v) k = some v := by
  induction l with
  | nil => simp [look, dictSet]
  | cons q rest ih =>
    obtain ⟨k', v'⟩ := q
    by_cases hq : k' = k
    · simp [dictSet, hq, look]
    · simp [dictSet, hq, look, ih]

theorem look_dictSet_ne {α : Type} (l : List (String × α)) (k k' : String) (v : α)
    (h : k' ≠ k) : look (dictSet l k v) k' = look l k' := by
  induction l with
  | nil => simp [look, dictSet, Ne.symm h]
  | cons q rest ih =>
    obtain ⟨k₀, v₀⟩ := q
    by_cases h0 : k₀ = k
    · subst h0
      simp [dictSet, look, Ne.symm h]
    · by_cases h1 : k₀ = k'
      · simp [dictSet, h0, look, h1, h]
      · simp [dictSet, h0, look, h1, ih]

/-! ## Exception taxonomy

Embeds the exception classes of `src/exceptions.py` / `src/utils.py`
together with the built-in Python exception kinds the source can raise.
`exception` is the untyped built-in `Exception(msg)`. -/

inductive PyExc where
  | exception (msg : String)
  | apiError (msg : String)
  | rateLimitError (msg : String)
  | authenticationError (msg : String)
  | notFoundError (msg : String)
  | validationError (msg : String)
  | serverError (msg : String)
  | attributeError (name : String)
  | contentTypeError
  deriving DecidableEq, Repr

/-- The Python class name of an embedded exception value. -/
def PyExc.className : PyExc → String
  | .exception _ => "Exception"
  | .apiError _ => "APIError"
  | .rateLimitError _ => "RateLimitError"
  | .authenticationError _ => "AuthenticationError"
  | .notFoundError _ => "NotFoundError"
  | .validationError _ => "ValidationError"
  | .serverError _ => "ServerError"
  | .attributeError _ => "AttributeError"
  | .contentTypeError => "ContentTypeError"

/-- Whether the exception is one of the typed API error classes declared in
`src/exceptions.py` (as opposed to an untyped built-in exception). -/
def PyExc.isTypedAPIError : PyExc → Bool
  | .apiError _ => true
  | .rateLimitError _ => true
  | .authenticationError _ => true
  | .notFoundError _ => true
  | .validationError _ => true
  | .serverError _ => true
  | _ => false

/-- The class name of the exception raised by a request outcome, if any. -/
def raisedClass {α : Type} : Except PyExc α → Option String
  | .error e => some e.className
  | .ok _ => none

/-! ## HTTP request executor (`SliteAPI._make_request`, src/slite_api.py) -/

/-- An HTTP response as seen by `_make_request`: its status code, its body
as JSON if `response.json()` succeeds (`none` embeds the
`aiohttp.ContentTypeError` case of a non-JSON body), and its raw text. -/
structure HttpResponse where
  status : Nat
  jsonBody : Option String
  textBody : String
  deriving DecidableEq, Repr

/-- A successful `_make_request` result: the parsed JSON body, or the empty
dict returned for a DELETE that answered 204. -/
inductive RespVal where
  | emptyDict
  | json (s : String)
  deriving DecidableEq, Repr

/-- `SliteAPI._make_request` (src/slite_api.py lines 173-215), response
classification only: the session guard, URL construction and the `backoff`
decorator around the call are outside this embedding.  The source raises
untyped `Exception`s with message strings for every failing status; the
typed classes of `src/exceptions.py` appear nowhere in it. -/
def _make_request (method endpoint : String) (resp : HttpResponse) :
    Except PyExc RespVal :=
  if resp.status = 404 then
    .error (.exception ("Resource not found: " ++ endpoint))
  else if resp.status = 429 then
    .error (.exception "Rate limit exceeded")
  else if resp.status = 503 then
    .error (.exception "Service temporarily unavailable")
  else if 400 ≤ resp.status then
    .error (.exception ("Request failed: " ++ resp.textBody))
  else if method = "DELETE" ∧ resp.status = 204 then
    .ok .emptyDict
  else
    match resp.jsonBody with
    | some s => .ok (.json s)
    | none =>
      -- `aiohttp.ContentTypeError` from `response.json()`; the guard
      -- `not (method == "DELETE" and response.status == 204)` re-checks a
      -- condition that is false on this path, so the error is re-raised.
      if method = "DELETE" ∧ resp.status = 204 then .ok .emptyDict
      else .error .contentTypeError

/-! ## Retry with backoff (`retry_with_backoff`, src/utils.py lines 95-126) -/

/-- Observable trace of one decorated call: the value returned or exception
propagated, how many times the wrapped function was invoked, and the
durations passed to `time.sleep` between attempts, in order. -/
structure RetryTrace (ε α : Type) where
  result : Except ε α
  calls : Nat
  sleeps : List ℚ
  deriving Repr

/-- The `while True` loop of `retry_with_backoff`'s `wrapper`.  `x` is the
source's attempt counter; `remaining` counts down `retries - x`, so the
`x == retries` test of the source is the `remaining = 0` case.  The wrapped
function is embedded as the outcome sequence `f : ℕ → Except ε α` giving the
result of its `x`-th invocation, and the `random.uniform(0, 1)` jitter as
the sequence `jit`.  (The `rate_limiter.wait_for_next_slot()` call before
each attempt does not affect the trace fields recorded here.) -/
def retryGo {ε α : Type} (base : Nat) (jit : Nat → ℚ) (f : Nat → Except ε α) :
    Nat → Nat → RetryTrace ε α
  | x, remaining =>
    match f x with
    | .ok a => ⟨.ok a, 1, []⟩
    | .error e =>
      match remaining with
      | 0 => ⟨.error e, 1, []⟩
      | r + 1 =>
        let t := retryGo base jit f (x + 1) r
        ⟨t.result, t.calls + 1, ((base : ℚ) * 2 ^ x + jit x) :: t.sleeps⟩

/-- `retry_with_backoff(retries, backoff_in_seconds)` applied to a function
whose attempt outcomes are `f`: run the wrapper loop from `x = 0`. -/
def retry_with_backoff {ε α : Type} (retries base : Nat) (jit : Nat → ℚ)
    (f : Nat → Except ε α) : RetryTrace ε α :=
  retryGo base jit f 0 retries

theorem retryGo_calls_le {ε α : Type} (base : Nat) (jit : Nat → ℚ)
    (f : Nat → Except ε α) :
    ∀ r x, (retryGo base jit f x r).calls ≤ r + 1 := by
  intro r
  induction r with
  | zero =>
    intro x
    rw [retryGo]
    cases f x <;> simp
  | succ r ih =>
    intro x
    rw [retryGo]
    cases f x with
    | ok a => simp
    | error e =>
      simpa using Nat.succ_le_succ (ih (x + 1))

theorem retryGo_calls_pos {ε α : Type} (base : Nat) (jit : Nat → ℚ)
    (f : Nat → Except ε α) :
    ∀ r x, 1 ≤ (retryGo base jit f x r).calls := by
  intro r x
  rw [retryGo]
  cases f x with
  | ok a => simp
  | error e => cases r <;> simp

theorem retryGo_sleeps_get? {ε α : Type} (base : Nat) (jit : Nat → ℚ)
    (f : Nat → Except ε α) :
    ∀ r x k s, (retryGo base jit f x r).sleeps[k]? = some s →
      s = (base : ℚ) * 2 ^ (x + k) + jit (x + k) := by
  intro r
  induction r with
  | zero =>
    intro x k s h
    rw [retryGo] at h
    cases hfx : f x <;> simp [hfx] at h
  | succ r ih =>
    intro x k s h
    rw [retryGo] at h
    cases hfx : f x with
    | ok a => simp [hfx] at h
    | error e =>
      simp only [hfx] at h
      cases k with
      | zero =>
        simp at h
        simpa using h.symm
      | succ k =>
        simp at h
        have := ih (x + 1) k s h
        rw [this, (by omega : x + 1 + k = x + (k + 1))]

theorem retryGo_all_fail {ε α : Type} (base : Nat) (jit : Nat → ℚ)
    (f : Nat → Except ε α) :
    ∀ r x, (∀ k, x ≤ k → k ≤ x + r → ∃ e, f k = .error e) →
      (retryGo base jit f x r).result = f (x + r) ∧
      (retryGo base jit f x r).calls = r + 1 ∧
      (retryGo base jit f x r).sleeps.length = r := by
  intro r
  induction r with
  | zero =>
    intro x h
    obtain ⟨e, he⟩ := h x le_rfl (by omega)
    rw [retryGo]
    simp [he]
  | succ r ih =>
    intro x h
    obtain ⟨e, he⟩ := h x le_rfl (by omega)
    rw [retryGo]
    simp only [he]
    have := ih (x + 1) (fun k hk1 hk2 => h k (by omega) (by omega))
    have hx : x + 1 + r = x + (r + 1) := by omega
    rw [hx] at this
    simp [this.1, this.2.1, this.2.2]

/-! ## Rate limiter (`RateLimiter`, src/utils.py lines 52-90) -/

/-- `RateLimiter` state: configuration and the recorded request times. -/
structure RateLimiter where
  maxRequests : Nat
  timeWindow : ℚ
  requests : List ℚ
  deriving DecidableEq, Repr

/-- `RateLimiter.can_make_request` at wall-clock time `now`: purge
timestamps outside the sliding window, then admit (recording `now`) iff
fewer than `max_requests` remain.  Returns the admission decision and the
mutated limiter. -/
def can_make_request (rl : RateLimiter) (now : ℚ) : Bool × RateLimiter :=
  let purged := rl.requests.filter (fun t => now - t < rl.timeWindow)
  if purged.length < rl.maxRequests then
    (true, { rl with requests := purged ++ [now] })
  else
    (false, { rl with requests := purged })

/-! ## File-backed cache (`Cache`, src/utils.py lines 128-188)

The in-memory dict `self._cache`; `_save_cache` writes it through to the
cache file after each mutation and is not modelled separately. -/

structure Cache (α : Type) where
  entries : List (String × α)
  deriving DecidableEq, Repr

/-- `Cache.get`: `self._cache.get(key)` — a plain dict lookup. -/
def Cache.get {α : Type} (c : Cache α) (k : String) : Option α :=
  look c.entries k

/-- `Cache.set`: `self._cache[key] = value` followed by `_save_cache()`. -/
def Cache.set {α : Type} (c : Cache α) (k : String) (v : α) : Cache α :=
  ⟨dictSet c.entries k v⟩

/-- `Cache.clear`: reset the dict to `{}`. -/
def Cache.clear {α : Type} (_ : Cache α) : Cache α := ⟨[]⟩

/-! ## Note manager data model (src/models.py, src/note_manager.py)

The registry file holds three dicts: `notes` (note id → note record),
`folders` (folder id → folder record, the `folders_registry`), and
`folder_hierarchy` (folder id → ordered child folder ids).  NoteManager's
cache stores, under key `"note_" ++ id`, either a small dict of note data
or Python `None` (written by `delete_note`), embedded as `Option CacheNote`.
-/

/-- The note argument of `create_note`/`update_note`, with the fields the
note manager reads: `title`, `content`, `parent_id`, `project`,
`department`.  (The pydantic `MeetingNote` of `src/models.py` declares only
`title`, `content`, timestamps and `metadata`; the `note.parent_id`,
`note.project`, `note.department` accesses in `src/note_manager.py` assume
the extended shape embedded here and would raise `AttributeError` on the
narrower class — a latent mismatch between the two modules that is
orthogonal to the registry logic under study.) -/
structure MeetingNote where
  title : String
  content : String
  parent_id : Option String := none
  project : Option String := none
  department : Option String := none
  deriving DecidableEq, Repr

/-- `FolderStructure` (src/models.py): folder-creation argument. -/
structure FolderStructure where
  name : String
  description : Option String := none
  parent_id : Option String := none
  deriving DecidableEq, Repr

/-- A `notes_registry["notes"]` entry as built by `create_note` and
mutated by `update_note` (which adds the `updated_at` key). -/
structure NoteRec where
  id : String
  title : String
  created_at : String
  parent_id : Option String
  project : Option String
  department : Option String
  updated_at : Option String := none
  deriving DecidableEq, Repr

/-- A `folders_registry` entry as built by `create_folder`. -/
structure FolderRec where
  id : String
  name : String
  description : Option String
  created_at : String
  parent_id : Option String
  deriving DecidableEq, Repr

/-- The dict cached under `"note_" ++ id` by `create_note`/`update_note`. -/
structure CacheNote where
  title : String
  content : String
  folder_id : Option String
  deriving DecidableEq, Repr

/-- The NoteManager's mutable state: the three registry dicts plus the
note cache (`note_manager_cache.json`). -/
structure RegState where
  notes : List (String × NoteRec)
  folders : List (String × FolderRec)
  hierarchy : List (String × List String)
  cache : Cache (Option CacheNote)
  deriving DecidableEq, Repr

/-- Python truthiness of an optional string: `None` and `""` are falsy. -/
def strTruthy : Option String → Bool
  | none => false
  | some s => s ≠ ""

/-- `NoteManager.create_note` (src/note_manager.py lines 83-113).
`remote` is the outcome of `self.api.create_note(note, parent_id)`
(returning the remote-assigned note id), `save` the outcome of
`_save_registry()`; `now` stands for `datetime.now().isoformat()`.
Returns the post-call state and the returned note id or the exception
re-raised by the `except` clause. -/
def create_note (st : RegState) (note : MeetingNote) (parent_id : Option String)
    (now : String) (remote : Except PyExc String) (save : Except PyExc Unit) :
    RegState × Except PyExc String :=
  -- _validate_note: `if not note.title` / `if not note.content`
  if note.title = "" then
    (st, .error (.validationError "Note title is required"))
  else if note.content = "" then
    (st, .error (.validationError "Note content is required"))
  else
    match remote with
    | .error e => (st, .error e)
    | .ok note_id =>
      let st1 := { st with
        notes := dictSet st.notes note_id
          ⟨note_id, note.title, now, parent_id, note.project, note.department, none⟩ }
      match save with
      | .error e => (st1, .error e)
      | .ok _ =>
        let st2 := { st1 with
          cache := st1.cache.set ("note_" ++ note_id)
            (some ⟨note.title, note.content, parent_id⟩) }
        (st2, .ok note_id)

/-- `NoteManager.update_note` (src/note_manager.py lines 115-145).
`remote` is the outcome of `self.api.update_note(note_id, note)`.  Every
exception is caught by the trailing `except`, which returns `False`. -/
def update_note (st : RegState) (note_id : String) (note : MeetingNote)
    (now : String) (remote : Except PyExc Unit) (save : Except PyExc Unit) :
    RegState × Except PyExc Bool :=
  if note.title = "" then (st, .ok false)
  else if note.content = "" then (st, .ok false)
  else
    match look st.notes note_id with
    | none => (st, .ok false)  -- ValidationError raised, caught → False
    | some r =>
      match remote with
      | .error _ => (st, .ok false)
      | .ok _ =>
        let st1 := { st with
          notes := dictSet st.notes note_id
            { r with title := note.title, parent_id := note.parent_id,
                     updated_at := some now } }
        match save with
        | .error _ => (st1, .ok false)
        | .ok _ =>
          let st2 := { st1 with
            cache := st1.cache.set ("note_" ++ note_id)
              (some ⟨note.title, note.content, note.parent_id⟩) }
          (st2, .ok true)

/-- `NoteManager.delete_note` (src/note_manager.py lines 147-167).
`remote` is the outcome of `self.api.delete_note(note_id)` (a success
flag); the trailing `except` returns `False` for any exception, and a
failing `_save_registry` therefore also yields `False` — after the
in-memory registry has already dropped the note. -/
def delete_note (st : RegState) (note_id : String)
    (remote : Except PyExc Bool) (save : Except PyExc Unit) :
    RegState × Except PyExc Bool :=
  match look st.notes note_id with
  | none => (st, .ok false)  -- ValidationError raised, caught → False
  | some _ =>
    match remote with
    | .error _ => (st, .ok false)
    | .ok false => (st, .ok false)  -- `return success` with success falsy
    | .ok true =>
      let st1 := { st with notes := dictErase st.notes note_id }
      match save with
      | .error _ => (st1, .ok false)
      | .ok _ =>
        let st2 := { st1 with cache := st1.cache.set ("note_" ++ note_id) none }
        (st2, .ok true)

/-- `NoteManager.create_folder` (src/note_manager.py lines 187-216).
`remote` is the outcome of `self.api.create_folder(folder)` (returning the
remote-assigned folder id); `saveF` and `saveR` are the outcomes of
`_save_folders_registry()` and `_save_registry()`.  Exceptions are
re-raised by the `except` clause. -/
def create_folder (st : RegState) (folder : FolderStructure) (now : String)
    (remote : Except PyExc String) (saveF saveR : Except PyExc Unit) :
    RegState × Except PyExc String :=
  match remote with
  | .error e => (st, .error e)
  | .ok folder_id =>
    let st1 := { st with
      folders := dictSet st.folders folder_id
        ⟨folder_id, folder.name, folder.description, now, folder.parent_id⟩ }
    match saveF with
    | .error e => (st1, .error e)
    | .ok _ =>
      -- `if folder.parent_id:` — hierarchy update, with default-[] insertion
      let st2 :=
        match folder.parent_id with
        | some p =>
          if p = "" then st1
          else { st1 with
            hierarchy := dictSet st1.hierarchy p
              ((look st1.hierarchy p).getD [] ++ [folder_id]) }
        | none => st1
      match saveR with
      | .error e => (st2, .error e)
      | .ok _ => (st2, .ok folder_id)

/-- `NoteManager.update_folder` (src/note_manager.py lines 218-235).
`remote` is the outcome of `self.api.update_folder(folder_id, folder)`,
embedded as the truthiness and `status` field of the response (`none` for
a falsy response object).  The registry is mutated only inside the
`if response and response.status == "success"` branch; a falsy response or
a non-`"success"` status makes the function fall through to an implicit
`None` (falsy), embedded as `false` alongside the `except` path's
`False`. -/
def update_folder (st : RegState) (folder_id : String)
    (folder : FolderStructure) (remote : Except PyExc (Option String))
    (save : Except PyExc Unit) : RegState × Except PyExc Bool :=
  match look st.folders folder_id with
  | none => (st, .ok false)  -- ValidationError raised, caught → False
  | some r =>
    match remote with
    | .error _ => (st, .ok false)  -- caught → False
    | .ok none => (st, .ok false)  -- falsy response, falls through
    | .ok (some status) =>
      if status = "success" then
        let st1 := { st with
          folders := dictSet st.folders folder_id
            { r with name := folder.name,
                     description := folder.description } }
        match save with
        | .error _ => (st1, .ok false)  -- save raised, caught → False
        | .ok _ => (st1, .ok true)
      else (st, .ok false)  -- falls through (None, falsy)

/-- The snapshot `self.notes_registry["folder_hierarchy"][folder_id][:]`
iterated by `delete_folder`'s loops (`[]` when the key is absent, matching
the `if folder_id in ...` guards). -/
def childrenOf (st : RegState) (folder_id : String) : List String :=
  (look st.hierarchy folder_id).getD []

/-- The first loop of `delete_folder`: `for note_id in hierarchy[fid][:]:
self.delete_note(note_id)` — each return value is discarded. -/
def delNotesLoop (rn : String → Except PyExc Bool) (save : Except PyExc Unit)
    (st : RegState) (ids : List String) : RegState :=
  ids.foldl (fun s nid => (delete_note s nid (rn nid) save).1) st

/-- The second loop of `delete_folder`: recursively delete each subfolder id
of the snapshot, threading the state; `delF` is the recursive call at the
smaller fuel, and a `none` (out-of-fuel) result propagates. -/
def delSubsLoop (delF : RegState → String → Option (RegState × Except PyExc Bool)) :
    RegState → List String → Option RegState
  | st, [] => some st
  | st, c :: cs =>
    match delF st c with
    | none => none
    | some (st', _) => delSubsLoop delF st' cs

/-- `NoteManager.delete_folder` (src/note_manager.py lines 237-271), with a
recursion-depth budget `fuel` (`none` = the budget was exhausted; the Python
recursion would still be running / hit the interpreter's recursion limit).
`rn fid` / `rf fid` are the outcomes of `self.api.delete_note(fid)` /
`self.api.delete_folder(fid)`, and `save` the outcome of each registry
file-write.  The Python function returns `True` on success, `False` when the
trailing `except` catches, and falls through to an implicit `None` (falsy)
when the remote folder delete returns a falsy value; the fall-through is
embedded as `false` alongside the `except` path. -/
def delete_folderGo (rn rf : String → Except PyExc Bool) (save : Except PyExc Unit) :
    Nat → RegState → String → Option (RegState × Except PyExc Bool)
  | 0, _, _ => none
  | fuel + 1, st, fid =>
    match look st.folders fid with
    | none => some (st, .ok false)  -- ValidationError raised, caught → False
    | some _ =>
      let st1 := delNotesLoop rn save st (childrenOf st fid)
      match delSubsLoop (delete_folderGo rn rf save fuel) st1 (childrenOf st1 fid) with
      | none => none
      | some st2 =>
        match rf fid with
        | .error _ => some (st2, .ok false)  -- caught → False
        | .ok false => some (st2, .ok false)  -- falls through (None, falsy)
        | .ok true =>
          match look st2.folders fid with
          | none => some (st2, .ok false)  -- KeyError caught → False
          | some rec =>
            -- `if parent_id and parent_id in hierarchy: hierarchy[parent].remove(fid)`
            match
              match rec.parent_id with
              | some p =>
                if p = "" then some st2
                else
                  match look st2.hierarchy p with
                  | none => some st2
                  | some sibs =>
                    if fid ∈ sibs then
                      some { st2 with hierarchy := dictSet st2.hierarchy p (listRemove sibs fid) }
                    else none  -- ValueError from list.remove, caught → False
              | none => some st2
            with
            | none => some (st2, .ok false)
            | some st3 =>
              let st4 := { st3 with folders := dictErase st3.folders fid }
              let st5 := { st4 with
                hierarchy :=
                  if (look st4.hierarchy fid).isSome then dictErase st4.hierarchy fid
                  else st4.hierarchy }
              match save with
              | .error _ => some (st5, .ok false)  -- save raised, caught → False
              | .ok _ => some (st5, .ok true)

/-! ## Folder parent chains (`get_folder_path`, acyclicity) -/

/-- Follow the `parent_id` chain `k` steps through the folders registry,
starting from folder id `i`; `none` when the chain leaves the registry or
hits a record without a parent before `k` steps are done. -/
def iterParent (fs : List (String × FolderRec)) : Nat → String → Option String
  | 0, i => some i
  | k + 1, i =>
    match look fs i with
    | none => none
    | some f =>
      match f.parent_id with
      | none => none
      | some p => iterParent fs k p

/-- Acyclicity of the folder registry's parent chains: no registered folder
id is reached again by following parents for between `1` and `fs.length`
steps.  (Any parent-chain cycle consists of registered ids, hence has
length at most `fs.length`, so this finite check rules out all cycles —
see `iterParent_acyclic_all`.) -/
def AcyclicF (fs : List (String × FolderRec)) : Prop :=
  ∀ i ∈ fs.map Prod.fst, ∀ k ∈ List.range (fs.length + 1),
    0 < k → iterParent fs k i ≠ some i

instance (fs : List (String × FolderRec)) : Decidable (AcyclicF fs) := by
  unfold AcyclicF
  infer_instance

/-- The `while current_id and current_id in self.folders_registry` loop of
`get_folder_path`, with a step budget: `acc` is the accumulated `path`
(records are prepended, so the result is root-first), and `none` means the
budget ran out while the loop condition still held. -/
def get_folder_pathGo (fs : List (String × FolderRec)) :
    Nat → Option String → List FolderRec → Option (List FolderRec)
  | 0, cur, acc =>
    match cur with
    | none => some acc
    | some i =>
      if i = "" then some acc
      else
        match look fs i with
        | none => some acc
        | some _ => none
  | fuel + 1, cur, acc =>
    match cur with
    | none => some acc
    | some i =>
      if i = "" then some acc
      else
        match look fs i with
        | none => some acc
        | some f => get_folder_pathGo fs fuel f.parent_id (f :: acc)

/-- `NoteManager.get_folder_path` (src/note_manager.py lines 319-334) run
with a budget of `fs.length + 1` loop iterations — enough for any acyclic
registry (`get_folder_path_correct`). -/
def get_folder_path (fs : List (String × FolderRec)) (folder_id : String) :
    Option (List FolderRec) :=
  get_folder_pathGo fs (fs.length + 1) (some folder_id) []

theorem iterParent_add (fs : List (String × FolderRec)) :
    ∀ a b i, iterParent fs (a + b) i =
      (iterParent fs a i).bind (iterParent fs b) := by
  intro a
  induction a with
  | zero => intro b i; simp [iterParent]
  | succ a ih =>
    intro b i
    rw [(by omega : a + 1 + b = (a + b) + 1)]
    cases hl : look fs i with
    | none => simp [iterParent, hl]
    | some f =>
      cases hp : f.parent_id with
      | none => simp [iterParent, hl, hp]
      | some p => simp [iterParent, hl, hp, ih]

/-- If the chain is still defined after `a + 1 + c` steps, then after `a`
steps it sits on a registered folder id. -/
theorem iterParent_prefix_def (fs : List (String × FolderRec)) {a c : Nat}
    {i x : String} (h : iterParent fs (a + 1 + c) i = some x) :
    ∃ j, iterParent fs a i = some j ∧ (look fs j).isSome := by
  rw [iterParent_add] at h
  cases h1 : iterParent fs (a + 1) i with
  | none => rw [h1] at h; simp at h
  | some y =>
    have h2 := h1
    rw [iterParent_add] at h2
    cases h3 : iterParent fs a i with
    | none => rw [h3] at h2; simp at h2
    | some j =>
      refine ⟨j, rfl, ?_⟩
      rw [h3] at h2
      simp only [Option.some_bind] at h2
      rw [iterParent] at h2
      cases h4 : look fs j with
      | none => rw [h4] at h2; simp at h2
      | some f => simp [h4]

/-- A parent-chain cycle keeps the whole forward chain defined and inside
the registry, for any number of steps. -/
theorem iterParent_cycle_chain_all {fs : List (String × FolderRec)}
    {i : String} {k : Nat} (hk : 0 < k) (hcyc : iterParent fs k i = some i) :
    ∀ t, ∃ j, iterParent fs t i = some j ∧ (look fs j).isSome := by
  have hq : ∀ q, iterParent fs (q * k) i = some i := by
    intro q
    induction q with
    | zero => simp [iterParent]
    | succ q ihq =>
      rw [(by ring : (q + 1) * k = q * k + k), iterParent_add, ihq]
      simpa using hcyc
  intro t
  have hbig : t + 1 ≤ (t + 1) * k := Nat.le_mul_of_pos_right _ hk
  have hN := hq (t + 1)
  rw [(by omega : (t + 1) * k = t + 1 + ((t + 1) * k - (t + 1)))] at hN
  exact iterParent_prefix_def fs hN

/-- Pigeonhole: if the parent chain from `i` stays defined and registered
for `fs.length` steps, some registered id lies on a cycle of length at most
`fs.length`. -/
theorem iterParent_cycle_of_chain (fs : List (String × FolderRec)) (i : String)
    (h : ∀ t, t ≤ fs.length → ∃ j, iterParent fs t i = some j ∧ (look fs j).isSome) :
    ∃ j k, (look fs j).isSome ∧ 0 < k ∧ k ≤ fs.length ∧
      iterParent fs k j = some j := by
  classical
  set n := fs.length with hn
  set v : Nat → String := fun t => (iterParent fs t i).getD "" with hv0
  have hv : ∀ t, t ≤ n → iterParent fs t i = some (v t) ∧ (look fs (v t)).isSome := by
    intro t ht
    obtain ⟨j, hj1, hj2⟩ := h t ht
    have hvt : v t = j := by simp [hv0, hj1]
    rw [hvt, hj1]
    exact ⟨rfl, hj2⟩
  have hcard : ((fs.map Prod.fst).toFinset).card < (Finset.range (n + 1)).card := by
    have h1 := List.toFinset_card_le (fs.map Prod.fst)
    have h2 : (fs.map Prod.fst).length = n := by simp [hn]
    simp only [Finset.card_range]
    omega
  have hmaps : ∀ t ∈ Finset.range (n + 1), v t ∈ (fs.map Prod.fst).toFinset := by
    intro t ht
    have ht' : t ≤ n := Nat.lt_succ_iff.mp (Finset.mem_range.mp ht)
    exact List.mem_toFinset.mpr (look_isSome_mem_keys (hv t ht').2)
  obtain ⟨a, ha, b, hb, hab, hvab⟩ :=
    Finset.exists_ne_map_eq_of_card_lt_of_maps_to hcard hmaps
  have key : ∀ a b, a < b → b ≤ n → v a = v b →
      ∃ j k, (look fs j).isSome ∧ 0 < k ∧ k ≤ n ∧ iterParent fs k j = some j := by
    intro a b hlt hbn heq
    refine ⟨v a, b - a, (hv a (by omega)).2, by omega, by omega, ?_⟩
    have h1 : iterParent fs b i = some (v b) := (hv b hbn).1
    have h2 : iterParent fs a i = some (v a) := (hv a (by omega)).1
    rw [(by omega : b = a + (b - a)), iterParent_add, h2] at h1
    simp only [Option.some_bind] at h1
    rw [h1, (by omega : a + (b - a) = b), ← heq]
  have han : a ≤ n := Nat.lt_succ_iff.mp (Finset.mem_range.mp ha)
  have hbn : b ≤ n := Nat.lt_succ_iff.mp (Finset.mem_range.mp hb)
  rcases Nat.lt_or_ge a b with hlt | hge
  · exact key a b hlt hbn hvab
  · have hlt : b < a := by omega
    exact key b a hlt han hvab.symm

/-- A registry passing the finite acyclicity check `AcyclicF` has no
parent-chain cycle of any length through a registered id. -/
theorem iterParent_acyclic_all {fs : List (String × FolderRec)}
    (hA : AcyclicF fs) :
    ∀ i, (look fs i).isSome → ∀ k, 0 < k → iterParent fs k i ≠ some i := by
  intro i hi k hk hcyc
  have hchain := iterParent_cycle_chain_all hk hcyc
  obtain ⟨j, k', hj, hk'pos, hk'le, hcyc'⟩ :=
    iterParent_cycle_of_chain fs i (fun t _ => hchain t)
  exact hA j (look_isSome_mem_keys hj) k' (List.mem_range.mpr (by omega))
    hk'pos hcyc'

theorem get_folder_pathGo_acc (fs : List (String × FolderRec)) :
    ∀ fuel cur acc, get_folder_pathGo fs fuel cur acc =
      (get_folder_pathGo fs fuel cur []).map (· ++ acc) := by
  intro fuel
  induction fuel with
  | zero =>
    intro cur acc
    cases cur with
    | none => simp [get_folder_pathGo]
    | some i =>
      by_cases hi : i = ""
      · simp [get_folder_pathGo, hi]
      · cases hl : look fs i with
        | none => simp [get_folder_pathGo, hi, hl]
        | some f => simp [get_folder_pathGo, hi, hl]
  | succ fuel ih =>
    intro cur acc
    cases cur with
    | none => simp [get_folder_pathGo]
    | some i =>
      by_cases hi : i = ""
      · simp [get_folder_pathGo, hi]
      · cases hl : look fs i with
        | none => simp [get_folder_pathGo, hi, hl]
        | some f =>
          simp only [get_folder_pathGo]
          rw [if_neg hi, if_neg hi]
          simp only [hl]
          rw [ih f.parent_id (f :: acc), ih f.parent_id [f], Option.map_map]
          congr 1
          funext l
          simp

/-- Soundness of the loop on a successful run (empty accumulator): the
returned `path` is a parent-linked chain, its first record is a root (its
parent, if any, is not registered), and its last record is the record of
the starting id when that id is registered. -/
theorem get_folder_pathGo_spec (fs : List (String × FolderRec))
    (hwf : ∀ p ∈ fs, (p.2).id = p.1)
    (hne : ∀ p ∈ fs, (p.2).parent_id ≠ some "") :
    ∀ fuel cur path, get_folder_pathGo fs fuel cur [] = some path →
      List.Chain' (fun a b => b.parent_id = some a.id) path ∧
      (∀ r, path.head? = some r → ∀ p, r.parent_id = some p → look fs p = none) ∧
      (match cur with
       | none => path = []
       | some i =>
         if i = "" then path = []
         else
           match look fs i with
           | none => path = []
           | some f => path.getLast? = some f) := by
  intro fuel
  induction fuel with
  | zero =>
    intro cur path h
    cases cur with
    | none =>
      simp [get_folder_pathGo] at h
      subst h
      simp
    | some i =>
      by_cases hi : i = ""
      · simp [get_folder_pathGo, hi] at h
        subst h
        simp [hi]
      · cases hl : look fs i with
        | none =>
          simp [get_folder_pathGo, hi, hl] at h
          subst h
          simp [hi, hl]
        | some f => simp [get_folder_pathGo, hi, hl] at h
  | succ fuel ih =>
    intro cur path h
    cases cur with
    | none =>
      simp [get_folder_pathGo] at h
      subst h
      simp
    | some i =>
      by_cases hi : i = ""
      · simp [get_folder_pathGo, hi] at h
        subst h
        simp [hi]
      · cases hl : look fs i with
        | none =>
          simp [get_folder_pathGo, hi, hl] at h
          subst h
          simp [hi, hl]
        | some f =>
          rw [get_folder_pathGo, if_neg hi] at h
          simp only [hl] at h
          rw [get_folder_pathGo_acc] at h
          cases hpre : get_folder_pathGo fs fuel f.parent_id [] with
          | none => rw [hpre] at h; simp at h
          | some pre =>
            rw [hpre] at h
            simp only [Option.map_some', Option.some_inj] at h
            obtain ⟨hch, hhead, hmatch⟩ := ih f.parent_id pre hpre
            have hfmem : (i, f) ∈ fs := look_mem hl
            subst h
            refine ⟨?_, ?_, ?_⟩
            · -- Chain' (pre ++ [f])
              rw [List.chain'_append]
              refine ⟨hch, List.chain'_singleton f, ?_⟩
              intro x hx y hy
              simp only [List.head?_cons, Option.mem_def, Option.some_inj] at hy
              subst hy
              cases hpp : f.parent_id with
              | none =>
                rw [hpp] at hmatch
                simp only at hmatch
                subst hmatch
                simp at hx
              | some p =>
                have hp : p ≠ "" := by
                  intro hp0
                  exact hne (i, f) hfmem (by rw [hpp, hp0])
                rw [hpp] at hmatch
                simp only [if_neg hp] at hmatch
                cases hlp : look fs p with
                | none =>
                  rw [hlp] at hmatch
                  simp only at hmatch
                  subst hmatch
                  simp at hx
                | some g =>
                  rw [hlp] at hmatch
                  simp only at hmatch
                  rw [hmatch] at hx
                  simp only [Option.mem_def, Option.some_inj] at hx
                  subst hx
                  rw [hwf (p, g) (look_mem hlp)]
            · -- head of pre ++ [f] is a root
              intro r hr p hp
              cases hpe : pre with
              | nil =>
                rw [hpe] at hr
                simp only [List.nil_append, List.head?_cons,
                  Option.some_inj] at hr
                subst hr
                rw [hp] at hmatch
                have hpne : p ≠ "" := by
                  intro hp0
                  exact hne (i, f) hfmem (by rw [hp, hp0])
                simp only [if_neg hpne] at hmatch
                cases hlp : look fs p with
                | none => rfl
                | some g =>
                  rw [hlp] at hmatch
                  simp only at hmatch
                  rw [hpe] at hmatch
                  simp at hmatch
              | cons r0 rest =>
                rw [hpe] at hr
                simp only [List.cons_append, List.head?_cons,
                  Option.some_inj] at hr
                refine hhead r ?_ p hp
                rw [hpe, List.head?_cons, hr]
            · -- last of pre ++ [f] is f
              simp only [if_neg hi, hl]
              exact List.getLast?_concat pre

theorem get_folder_pathGo_none_cur (fs : List (String × FolderRec))
    (fuel : Nat) (acc : List FolderRec) :
    get_folder_pathGo fs fuel none acc = some acc := by
  cases fuel <;> simp [get_folder_pathGo]

/-- If the loop exhausts its budget, the parent chain from the start id was
defined and registered at every step up to the budget. -/
theorem get_folder_pathGo_none_chain (fs : List (String × FolderRec)) :
    ∀ fuel i acc, get_folder_pathGo fs fuel (some i) acc = none →
      ∀ t, t ≤ fuel → ∃ j, iterParent fs t i = some j ∧ (look fs j).isSome := by
  intro fuel
  induction fuel with
  | zero =>
    intro i acc h t ht
    by_cases hi : i = ""
    · simp [get_folder_pathGo, hi] at h
    · cases hl : look fs i with
      | none => simp [get_folder_pathGo, hi, hl] at h
      | some f =>
        have ht0 : t = 0 := by omega
        subst ht0
        exact ⟨i, rfl, by simp [hl]⟩
  | succ fuel ih =>
    intro i acc h t ht
    by_cases hi : i = ""
    · simp [get_folder_pathGo, hi] at h
    · cases hl : look fs i with
      | none => simp [get_folder_pathGo, hi, hl] at h
      | some f =>
        rw [get_folder_pathGo, if_neg hi] at h
        simp only [hl] at h
        cases hpp : f.parent_id with
        | none =>
          rw [hpp, get_folder_pathGo_none_cur] at h
          simp at h
        | some p =>
          rw [hpp] at h
          cases t with
          | zero => exact ⟨i, rfl, by simp [hl]⟩
          | succ t =>
            obtain ⟨j, hj1, hj2⟩ := ih p (f :: acc) h t (by omega)
            refine ⟨j, ?_, hj2⟩
            simp only [iterParent, hl, hpp]
            exact hj1

/-- If there is a parent-chain cycle through the start id, the loop never
finishes, whatever its budget. -/
theorem get_folder_pathGo_none_of_cycle (fs : List (String × FolderRec))
    (hne : ∀ pr ∈ fs, (pr.2).parent_id ≠ some "") :
    ∀ fuel i acc, i ≠ "" →
      (∀ t, ∃ j, iterParent fs t i = some j ∧ (look fs j).isSome) →
      get_folder_pathGo fs fuel (some i) acc = none := by
  intro fuel
  induction fuel with
  | zero =>
    intro i acc hi h
    obtain ⟨j, hj1, hj2⟩ := h 0
    rw [iterParent] at hj1
    simp only [Option.some_inj] at hj1
    subst hj1
    obtain ⟨f, hf⟩ := Option.isSome_iff_exists.mp hj2
    simp [get_folder_pathGo, hi, hf]
  | succ fuel ih =>
    intro i acc hi h
    obtain ⟨j0, hj01, hj02⟩ := h 0
    rw [iterParent] at hj01
    simp only [Option.some_inj] at hj01
    subst hj01
    obtain ⟨f, hf⟩ := Option.isSome_iff_exists.mp hj02
    obtain ⟨j1, hj11, hj12⟩ := h 1
    cases hpp : f.parent_id with
    | none =>
      simp only [iterParent, hf, hpp] at hj11
      exact absurd hj11 (by simp)
    | some p =>
      simp only [iterParent, hf, hpp, Option.some_inj] at hj11
      subst hj11
      have hpne : p ≠ "" := by
        intro hp0
        exact hne (i, f) (look_mem hf) (by rw [hpp, hp0])
      rw [get_folder_pathGo, if_neg hi]
      simp only [hf, hpp]
      apply ih p (f :: acc) hpne
      intro t
      obtain ⟨j, hj1, hj2⟩ := h (t + 1)
      refine ⟨j, ?_, hj2⟩
      simp only [iterParent, hf, hpp] at hj1
      exact hj1

theorem look_isSome_of_mem_keys {α : Type} {l : List (String × α)} {k : String}
    (h : k ∈ l.map Prod.fst) : (look l k).isSome := by
  induction l with
  | nil => simp at h
  | cons q rest ih =>
    obtain ⟨k', v'⟩ := q
    by_cases hk : k' = k
    · simp [look, hk]
    · simp only [look, hk, if_false, if_neg hk]
      simp only [List.map_cons, List.mem_cons] at h
      rcases h with h | h
      · exact absurd h.symm hk
      · exact ih h

/-- If no registered record's parent is `fid`, a parent chain can only end
at `fid` by starting there. -/
theorem iterParent_reaches_fresh {l : List (String × FolderRec)} {fid : String}
    (hnoref : ∀ pr ∈ l, (pr.2).parent_id ≠ some fid) :
    ∀ t x, iterParent l t x = some fid → x = fid := by
  intro t
  induction t with
  | zero =>
    intro x h
    rw [iterParent] at h
    exact Option.some_inj.mp h
  | succ t ih =>
    intro x h
    cases hl : look l x with
    | none =>
      simp only [iterParent, hl] at h
      exact absurd h (by simp)
    | some f =>
      cases hp : f.parent_id with
      | none =>
        simp only [iterParent, hl, hp] at h
        exact absurd h (by simp)
      | some p =>
        simp only [iterParent, hl, hp] at h
        have := ih p h
        subst this
        exact absurd hp (hnoref (x, f) (look_mem hl))

/-- Appending a fresh, unreferenced binding does not change parent chains
that start anywhere else. -/
theorem iterParent_concat_ne {l : List (String × FolderRec)} {fid : String}
    {rec : FolderRec}
    (hnoref : ∀ pr ∈ l, (pr.2).parent_id ≠ some fid) :
    ∀ t x, x ≠ fid → iterParent (l ++ [(fid, rec)]) t x = iterParent l t x := by
  intro t
  induction t with
  | zero => intro x _; rfl
  | succ t ih =>
    intro x hx
    simp only [iterParent, look_concat_ne l fid rec x hx]
    cases hl : look l x with
    | none => simp [hl]
    | some f =>
      simp only [hl]
      cases hp : f.parent_id with
      | none => simp [hp]
      | some p =>
        simp only [hp]
        exact ih p (fun hpe => hnoref (x, f) (look_mem hl) (by rw [hp, hpe]))

theorem look_dictErase_ne {α : Type} (l : List (String × α)) (k k' : String)
    (h : k' ≠ k) : look (dictErase l k) k' = look l k' := by
  induction l with
  | nil => rfl
  | cons q rest ih =>
    obtain ⟨k₀, v₀⟩ := q
    by_cases h0 : k₀ = k
    · subst h0
      simp [dictErase, look, Ne.symm h]
    · by_cases h1 : k₀ = k'
      · simp [dictErase, h0, look, h1, h]
      · simp [dictErase, h0, look, h1, ih]

/-- `delete_note` touches only the notes registry and the cache, never the
folders registry. -/
theorem delete_note_folders (st : RegState) (nid : String)
    (rem : Except PyExc Bool) (save : Except PyExc Unit) :
    (delete_note st nid rem save).1.folders = st.folders := by
  unfold delete_note
  cases look st.notes nid with
  | none => rfl
  | some r =>
    cases rem with
    | error e => rfl
    | ok b =>
      cases b with
      | false => rfl
      | true => cases save <;> rfl

theorem delNotesLoop_folders (rn : String → Except PyExc Bool)
    (save : Except PyExc Unit) :
    ∀ ids st, (delNotesLoop rn save st ids).folders = st.folders := by
  intro ids
  induction ids with
  | nil => intro st; rfl
  | cons c cs ih =>
    intro st
    simp only [delNotesLoop, List.foldl_cons]
    have h := ih ((delete_note st c (rn c) save).1)
    simp only [delNotesLoop] at h
    rw [h, delete_note_folders]

/-- If the folder whose own remote delete fails is `fid`, no call of the
recursive deletion — on any folder id — can remove `fid`'s entry from the
folders registry: the erase is reachable only after a successful remote
delete of `fid` itself. -/
theorem delete_folderGo_keeps_folders_entry (rn rf : String → Except PyExc Bool)
    (save : Except PyExc Unit) (fid : String) (e : PyExc)
    (hrf : rf fid = .error e) :
    ∀ fuel st x st' r, delete_folderGo rn rf save fuel st x = some (st', r) →
      look st'.folders fid = look st.folders fid := by
  intro fuel
  induction fuel with
  | zero =>
    intro st x st' r h
    rw [delete_folderGo] at h
    exact absurd h (by simp)
  | succ fuel ih =>
    have hsubs : ∀ l s s2,
        delSubsLoop (delete_folderGo rn rf save fuel) s l = some s2 →
        look s2.folders fid = look s.folders fid := by
      intro l
      induction l with
      | nil =>
        intro s s2 h
        rw [delSubsLoop] at h
        simp only [Option.some_inj] at h
        rw [← h]
      | cons c cs ihl =>
        intro s s2 h
        rw [delSubsLoop] at h
        cases hd : delete_folderGo rn rf save fuel s c with
        | none =>
          rw [hd] at h
          exact absurd h (by simp)
        | some pr =>
          obtain ⟨s', r'⟩ := pr
          simp only [hd] at h
          rw [ihl s' s2 h, ih s c s' r' hd]
    intro st x st' r h
    rw [delete_folderGo] at h
    cases hlx : look st.folders x with
    | none =>
      simp only [hlx, Option.some_inj, Prod.mk.injEq] at h
      rw [← h.1]
    | some frec =>
      simp only [hlx] at h
      cases hsub : delSubsLoop (delete_folderGo rn rf save fuel)
          (delNotesLoop rn save st (childrenOf st x))
          (childrenOf (delNotesLoop rn save st (childrenOf st x)) x) with
      | none =>
        simp only [hsub] at h
        exact absurd h (by simp)
      | some st2 =>
        simp only [hsub] at h
        have hst2 : look st2.folders fid = look st.folders fid := by
          rw [hsubs _ _ _ hsub, delNotesLoop_folders]
        cases hrfx : rf x with
        | error e' =>
          simp only [hrfx, Option.some_inj, Prod.mk.injEq] at h
          rw [← h.1]
          exact hst2
        | ok b =>
          cases b with
          | false =>
            simp only [hrfx, Option.some_inj, Prod.mk.injEq] at h
            rw [← h.1]
            exact hst2
          | true =>
            have hxfid : x ≠ fid := by
              intro hx
              rw [hx, hrf] at hrfx
              exact absurd hrfx (by simp)
            simp only [hrfx] at h
            cases hl2 : look st2.folders x with
            | none =>
              simp only [hl2, Option.some_inj, Prod.mk.injEq] at h
              rw [← h.1]
              exact hst2
            | some rec2 =>
              simp only [hl2] at h
              cases hpp : rec2.parent_id with
              | none =>
                simp only [hpp] at h
                cases save <;>
                  · simp only [Option.some_inj, Prod.mk.injEq] at h
                    rw [← h.1]
                    show look (dictErase st2.folders x) fid = look st.folders fid
                    rw [look_dictErase_ne st2.folders x fid (Ne.symm hxfid)]
                    exact hst2
              | some p =>
                simp only [hpp] at h
                by_cases hpe : p = ""
                · rw [if_pos hpe] at h
                  cases save <;>
                    · simp only [Option.some_inj, Prod.mk.injEq] at h
                      rw [← h.1]
                      show look (dictErase st2.folders x) fid = look st.folders fid
                      rw [look_dictErase_ne st2.folders x fid (Ne.symm hxfid)]
                      exact hst2
                · rw [if_neg hpe] at h
                  cases hlp : look st2.hierarchy p with
                  | none =>
                    simp only [hlp] at h
                    cases save <;>
                      · simp only [Option.some_inj, Prod.mk.injEq] at h
                        rw [← h.1]
                        show look (dictErase st2.folders x) fid =
                          look st.folders fid
                        rw [look_dictErase_ne st2.folders x fid (Ne.symm hxfid)]
                        exact hst2
                  | some sibs =>
                    simp only [hlp] at h
                    by_cases hin : x ∈ sibs
                    · rw [if_pos hin] at h
                      cases save <;>
                        · simp only [Option.some_inj, Prod.mk.injEq] at h
                          rw [← h.1]
                          show look (dictErase st2.folders x) fid =
                            look st.folders fid
                          rw [look_dictErase_ne st2.folders x fid
                            (Ne.symm hxfid)]
                          exact hst2
                    · rw [if_neg hin] at h
                      simp only [Option.some_inj, Prod.mk.injEq] at h
                      rw [← h.1]
                      exact hst2

/-- When the folder's own remote delete raises, `delete_folder` reports
`False` (through the `except` clause), never success. -/
theorem delete_folderGo_remote_error_result (rn rf : String → Except PyExc Bool)
    (save : Except PyExc Unit) (fid : String) (e : PyExc)
    (hrf : rf fid = .error e) :
    ∀ fuel st st' r, delete_folderGo rn rf save fuel st fid = some (st', r) →
      r = .ok false := by
  intro fuel st st' r h
  cases fuel with
  | zero =>
    rw [delete_folderGo] at h
    exact absurd h (by simp)
  | succ fuel =>
    rw [delete_folderGo] at h
    cases hlx : look st.folders fid with
    | none =>
      simp only [hlx, Option.some_inj, Prod.mk.injEq] at h
      exact h.2.symm
    | some frec =>
      simp only [hlx] at h
      cases hsub : delSubsLoop (delete_folderGo rn rf save fuel)
          (delNotesLoop rn save st (childrenOf st fid))
          (childrenOf (delNotesLoop rn save st (childrenOf st fid)) fid) with
      | none =>
        simp only [hsub] at h
        exact absurd h (by simp)
      | some st2 =>
        simp only [hsub, hrf, Option.some_inj, Prod.mk.injEq] at h
        exact h.2.symm

/-! ## Claim theorems -/

/-- **C2**: for every wrapped operation and configured retry count, the
retry wrapper invokes the operation at most `retries + 1` times; the sleep
before retry number `k+1` is `base * 2^k` plus the jitter `jit k` drawn
from `[0,1)`, so the deterministic part of the delay is non-decreasing
across attempts; and if all `retries + 1` attempts fail, the last failure
is propagated to the caller. -/
theorem C2_retry_with_backoff_bounds {ε α : Type} (retries base : Nat)
    (jit : Nat → ℚ) (f : Nat → Except ε α)
    (hjit : ∀ k, 0 ≤ jit k ∧ jit k < 1) :
    (retry_with_backoff retries base jit f).calls ≤ retries + 1 ∧
    (∀ k s, (retry_with_backoff retries base jit f).sleeps[k]? = some s →
      s = (base : ℚ) * 2 ^ k + jit k ∧
      (base : ℚ) * 2 ^ k ≤ s ∧ s < (base : ℚ) * 2 ^ k + 1) ∧
    (∀ j k sj sk, j ≤ k →
      (retry_with_backoff retries base jit f).sleeps[j]? = some sj →
      (retry_with_backoff retries base jit f).sleeps[k]? = some sk →
      sj - jit j ≤ sk - jit k) ∧
    ((∀ k, k ≤ retries → ∃ e, f k = .error e) →
      (retry_with_backoff retries base jit f).result = f retries ∧
      (retry_with_backoff retries base jit f).calls = retries + 1 ∧
      (retry_with_backoff retries base jit f).sleeps.length = retries) := by
  have hform : ∀ k s, (retry_with_backoff retries base jit f).sleeps[k]? = some s →
      s = (base : ℚ) * 2 ^ k + jit k := by
    intro k s hs
    have h1 := retryGo_sleeps_get? base jit f retries 0 k s hs
    simpa using h1
  refine ⟨retryGo_calls_le base jit f retries 0, ?_, ?_, ?_⟩
  · intro k s hs
    have h1 := hform k s hs
    obtain ⟨hj0, hj1⟩ := hjit k
    exact ⟨h1, by rw [h1]; linarith, by rw [h1]; linarith⟩
  · intro j k sj sk hjk hsj hsk
    have h1 := hform j sj hsj
    have h2 := hform k sk hsk
    rw [h1, h2]
    have hpow : (2 : ℚ) ^ j ≤ 2 ^ k := by
      apply pow_le_pow_right₀ _ hjk
      norm_num
    have hbase : (0 : ℚ) ≤ (base : ℚ) := Nat.cast_nonneg base
    nlinarith
  · intro hfail
    have h := retryGo_all_fail base jit f retries 0
      (fun k _ hk2 => hfail k (by omega))
    simpa using h

/-- **C2** witness: three consecutive failures with `retries = 2` make
exactly three calls and propagate the final error. -/
theorem C2_retry_with_backoff_bounds_witness :
    (retry_with_backoff 2 1 (fun _ => (1 : ℚ) / 2)
      (fun _ => (Except.error (PyExc.serverError "503") : Except PyExc Unit))).calls ≤ 3 ∧
    (retry_with_backoff 2 1 (fun _ => (1 : ℚ) / 2)
      (fun _ => (Except.error (PyExc.serverError "503") : Except PyExc Unit))).result =
      Except.error (PyExc.serverError "503") := by
  have h := C2_retry_with_backoff_bounds 2 1 (fun _ => (1 : ℚ) / 2)
    (fun _ => (Except.error (PyExc.serverError "503") : Except PyExc Unit))
    (fun k => by norm_num)
  exact ⟨h.1, (h.2.2.2 (fun k _ => ⟨_, rfl⟩)).1⟩

/-- **C4** (counterexample): an operation that keeps failing with the
permanent `AuthenticationError` is nevertheless retried: with `retries = 3`
the wrapper performs 4 invocations and sleeps three times (backoff delays
1, 2 and 4 seconds at zero jitter) instead of surfacing the error
immediately — `retry_with_backoff` catches bare `Exception` and never
inspects the error class. -/
theorem C4_counterexample :
    (retry_with_backoff 3 1 (fun _ => (0 : ℚ))
      (fun _ => (Except.error (PyExc.authenticationError "Invalid API key")
        : Except PyExc Unit))).calls = 4 ∧
    (retry_with_backoff 3 1 (fun _ => (0 : ℚ))
      (fun _ => (Except.error (PyExc.authenticationError "Invalid API key")
        : Except PyExc Unit))).sleeps = [1, 2, 4] ∧
    (retry_with_backoff 3 1 (fun _ => (0 : ℚ))
      (fun _ => (Except.error (PyExc.authenticationError "Invalid API key")
        : Except PyExc Unit))).result =
      Except.error (PyExc.authenticationError "Invalid API key") := by
  refine ⟨rfl, ?_, rfl⟩
  show [(1 : ℚ) * 2 ^ 0 + 0, 1 * 2 ^ 1 + 0, 1 * 2 ^ 2 + 0] = [1, 2, 4]
  norm_num

/-- **C4** (amended): `retry_with_backoff` never inspects the error class:
whatever exception the first attempt raises — including the permanent
`AuthenticationError` and `ValidationError` — when `retries ≥ 1` the
wrapper sleeps `base * 2^0 + jit 0` and invokes the operation again, so no
error is surfaced immediately; only exhaustion of all attempts propagates
the failure. -/
theorem C4_retry_ignores_error_class (retries base : Nat) (jit : Nat → ℚ)
    (f : Nat → Except PyExc Unit) (e : PyExc) (hr : 1 ≤ retries)
    (h0 : f 0 = .error e) :
    2 ≤ (retry_with_backoff retries base jit f).calls ∧
    (retry_with_backoff retries base jit f).sleeps.head? =
      some ((base : ℚ) * 2 ^ 0 + jit 0) := by
  obtain ⟨r, rfl⟩ : ∃ r, retries = r + 1 := ⟨retries - 1, by omega⟩
  rw [retry_with_backoff, retryGo, h0]
  exact ⟨Nat.succ_le_succ (retryGo_calls_pos base jit f r 1), rfl⟩

/-- **C4** witness: a first-attempt `ValidationError` with `retries = 1`
leads to a second invocation after a backoff sleep. -/
theorem C4_retry_ignores_error_class_witness :
    2 ≤ (retry_with_backoff 1 1 (fun _ => (0 : ℚ))
      (fun _ => (Except.error (PyExc.validationError "bad input")
        : Except PyExc Unit))).calls ∧
    (retry_with_backoff 1 1 (fun _ => (0 : ℚ))
      (fun _ => (Except.error (PyExc.validationError "bad input")
        : Except PyExc Unit))).sleeps.head? = some ((1 : ℚ) * 2 ^ 0 + 0) :=
  C4_retry_ignores_error_class 1 1 (fun _ => (0 : ℚ)) _
    (PyExc.validationError "bad input") (by omega) rfl

/-- **C3** (counterexample): a 401 response does not raise
`AuthenticationError` — `_make_request` raises the untyped
`Exception("Request failed: <body>")` (class name `"Exception"`, not
`"AuthenticationError"`). -/
theorem C3_counterexample :
    _make_request "GET" "/v1/notes/x" ⟨401, none, "unauthorized"⟩ =
      .error (.exception "Request failed: unauthorized") ∧
    raisedClass (_make_request "GET" "/v1/notes/x" ⟨401, none, "unauthorized"⟩) =
      some "Exception" := by
  constructor <;> rfl

/-- **C3** (amended): `_make_request` classifies responses with untyped
`Exception`s only: 404 → `Exception("Resource not found: <endpoint>")`,
429 → `Exception("Rate limit exceeded")`, 503 → `Exception("Service
temporarily unavailable")`, and every other status ≥ 400 (including 401,
403, 400 and the remaining 5xx) → `Exception("Request failed: <body>")`;
no typed class of `src/exceptions.py` is ever raised.  For status < 400 it
returns the parsed JSON body, returns the empty dict for a DELETE with
status 204, and raises `ContentTypeError` when the body is not JSON (even
for a non-DELETE 204). -/
theorem C3_make_request_classification (method endpoint : String)
    (resp : HttpResponse) :
    (resp.status = 404 →
      _make_request method endpoint resp =
        .error (.exception ("Resource not found: " ++ endpoint))) ∧
    (resp.status = 429 →
      _make_request method endpoint resp =
        .error (.exception "Rate limit exceeded")) ∧
    (resp.status = 503 →
      _make_request method endpoint resp =
        .error (.exception "Service temporarily unavailable")) ∧
    (400 ≤ resp.status → resp.status ≠ 404 → resp.status ≠ 429 →
      resp.status ≠ 503 →
      _make_request method endpoint resp =
        .error (.exception ("Request failed: " ++ resp.textBody))) ∧
    (resp.status < 400 → method = "DELETE" → resp.status = 204 →
      _make_request method endpoint resp = .ok .emptyDict) ∧
    (resp.status < 400 → ¬(method = "DELETE" ∧ resp.status = 204) →
      ∀ s, resp.jsonBody = some s →
        _make_request method endpoint resp = .ok (.json s)) ∧
    (resp.status < 400 → ¬(method = "DELETE" ∧ resp.status = 204) →
      resp.jsonBody = none →
      _make_request method endpoint resp = .error .contentTypeError) ∧
    (∀ e, _make_request method endpoint resp = .error e →
      e.isTypedAPIError = false) := by
  refine ⟨?_, ?_, ?_, ?_, ?_, ?_, ?_, ?_⟩
  · intro h
    simp [_make_request, h]
  · intro h
    simp [_make_request, h]
  · intro h
    simp [_make_request, h]
  · intro h400 h404 h429 h503
    simp [_make_request, h400, h404, h429, h503]
  · intro hlt hm h204
    simp [_make_request, hm, h204,
      (by omega : resp.status ≠ 404), (by omega : resp.status ≠ 429),
      (by omega : resp.status ≠ 503), (by omega : ¬400 ≤ resp.status)]
  · intro hlt hnd s hjson
    simp only [_make_request, hjson, hnd, if_false, if_neg hnd]
    split_ifs with h1 h2 h3 h4
    · exact absurd h1 (by omega)
    · exact absurd h2 (by omega)
    · exact absurd h3 (by omega)
    · exact absurd h4 (by omega)
    · rfl
  · intro hlt hnd hjson
    simp only [_make_request, hjson, hnd, if_false, if_neg hnd]
    split_ifs with h1 h2 h3 h4
    · exact absurd h1 (by omega)
    · exact absurd h2 (by omega)
    · exact absurd h3 (by omega)
    · exact absurd h4 (by omega)
    · rfl
  · intro e he
    unfold _make_request at he
    by_cases h1 : resp.status = 404
    · rw [if_pos h1] at he
      simp only [Except.error.injEq] at he
      rw [← he]; rfl
    · rw [if_neg h1] at he
      by_cases h2 : resp.status = 429
      · rw [if_pos h2] at he
        simp only [Except.error.injEq] at he
        rw [← he]; rfl
      · rw [if_neg h2] at he
        by_cases h3 : resp.status = 503
        · rw [if_pos h3] at he
          simp only [Except.error.injEq] at he
          rw [← he]; rfl
        · rw [if_neg h3] at he
          by_cases h4 : 400 ≤ resp.status
          · rw [if_pos h4] at he
            simp only [Except.error.injEq] at he
            rw [← he]; rfl
          · rw [if_neg h4] at he
            by_cases h5 : method = "DELETE" ∧ resp.status = 204
            · rw [if_pos h5] at he
              simp at he
            · rw [if_neg h5] at he
              cases hb : resp.jsonBody with
              | some s => rw [hb] at he; simp at he
              | none =>
                rw [hb] at he
                rw [if_neg h5] at he
                simp only [Except.error.injEq] at he
                rw [← he]; rfl

/-- **C3** witness: a 503 response raises the untyped service-unavailable
`Exception`, classified by the amended theorem. -/
theorem C3_make_request_classification_witness :
    _make_request "GET" "/v1/notes" ⟨503, none, "down"⟩ =
      .error (.exception "Service temporarily unavailable") :=
  (C3_make_request_classification "GET" "/v1/notes" ⟨503, none, "down"⟩).2.2.1 rfl

/-- **C5** (counterexample): `Cache.set` takes no TTL and stores no
timestamp, and `Cache.get` consults nothing but the dict — elapsed time is
not even an input — so a read performed arbitrarily long after the write
(in particular past any intended TTL `t`) still returns the stored value
instead of behaving as a miss and evicting. -/
theorem C5_counterexample :
    (Cache.set (⟨[]⟩ : Cache String) "k" "v").get "k" = some "v" ∧
    (Cache.set (⟨[]⟩ : Cache String) "k" "v").get "k" ≠ none := by
  constructor
  · rfl
  · simp [Cache.set, Cache.get, dictSet, look]

/-- **C5** (amended): `Cache` is a plain persistent dict with no TTL:
`set(k, v)` stores the value (with no timestamp), `get(k)` returns the most
recently stored value for `k` regardless of elapsed time and never evicts,
other keys are untouched, and only `clear()` empties the cache. -/
theorem C5_cache_no_expiry {α : Type} (c : Cache α) (k k' : String) (v : α)
    (h : k' ≠ k) :
    (c.set k v).get k = some v ∧
    (c.set k v).get k' = c.get k' ∧
    (Cache.clear c).get k = none := by
  refine ⟨look_dictSet_self c.entries k v, look_dictSet_ne c.entries k k' v h, ?_⟩
  simp [Cache.clear, Cache.get, look]

/-- **C5** witness: instantiating the amended contract on a concrete
cache. -/
theorem C5_cache_no_expiry_witness :
    ((⟨[("a", "1")]⟩ : Cache String).set "k" "v").get "k" = some "v" ∧
    ((⟨[("a", "1")]⟩ : Cache String).set "k" "v").get "a" =
      (⟨[("a", "1")]⟩ : Cache String).get "a" ∧
    (Cache.clear (⟨[("a", "1")]⟩ : Cache String)).get "k" = none :=
  C5_cache_no_expiry ⟨[("a", "1")]⟩ "k" "a" "v" (by decide)

/-- **C6**: an admission attempt first purges timestamps older than the
window, then admits — recording `now` — exactly when fewer than
`max_requests` purged timestamps remain; consequently, when `max_requests`
(or more) recorded requests are still inside the window, the attempt is
denied, and it stays denied until enough old timestamps fall outside the
window to bring the in-window count below `max_requests`. -/
theorem C6_rate_limiter_admission (rl : RateLimiter) (now : ℚ) :
    ((can_make_request rl now).1 = true ↔
      (rl.requests.filter (fun t => now - t < rl.timeWindow)).length <
        rl.maxRequests) ∧
    (can_make_request rl now).2.requests =
      rl.requests.filter (fun t => now - t < rl.timeWindow) ++
        (if (can_make_request rl now).1 then [now] else []) ∧
    (can_make_request rl now).2.maxRequests = rl.maxRequests ∧
    (can_make_request rl now).2.timeWindow = rl.timeWindow ∧
    ((∀ t ∈ rl.requests, now - t < rl.timeWindow) →
      rl.maxRequests ≤ rl.requests.length →
      (can_make_request rl now).1 = false) := by
  by_cases hlt : (rl.requests.filter (fun t => now - t < rl.timeWindow)).length <
      rl.maxRequests
  · refine ⟨by simp [can_make_request, hlt], by simp [can_make_request, hlt],
      by simp [can_make_request, hlt], by simp [can_make_request, hlt], ?_⟩
    intro hall hge
    have heq : rl.requests.filter (fun t => now - t < rl.timeWindow) =
        rl.requests := by
      apply List.filter_eq_self.mpr
      intro a ha
      simpa using hall a ha
    rw [heq] at hlt
    omega
  · exact ⟨by simp [can_make_request, hlt], by simp [can_make_request, hlt],
      by simp [can_make_request, hlt], by simp [can_make_request, hlt],
      fun _ _ => by simp [can_make_request, hlt]⟩

/-- **C6** witness: with `max_requests = 2` and both recorded timestamps
still inside the 60-second window, a third admission attempt is denied. -/
theorem C6_rate_limiter_admission_witness :
    (can_make_request ⟨2, 60, [10, 20]⟩ 30).1 = false :=
  (C6_rate_limiter_admission ⟨2, 60, [10, 20]⟩ 30).2.2.2.2
    (by norm_num) (by norm_num)

/-- **C7**: the remote call comes first and the local state is mutated
only after it succeeds, for all six mutating operations.  When the remote
call raises, `create_note`, `delete_note`, `update_note`, `create_folder`
and `update_folder` leave the registry, hierarchy map and cache exactly as
they were (no optimistic local-only record), surfacing the re-raised
exception (`create_note`/`create_folder`) or `False`
(`update_note`/`delete_note`/`update_folder`).  For `delete_folder`, whose
cascade issues one remote call per descendant, the granularity is per
remote call: when the folder's OWN remote delete raises, a folder with no
recorded children is left entirely unchanged with `False` returned, and in
general — even when child deletions of the cascade have already applied
their own remote-confirmed local mutations — the operation returns `False`
and the folder's own registry entry is never removed. -/
theorem C7_remote_failure_leaves_state_unchanged (st : RegState)
    (note : MeetingNote) (p : Option String) (now : String) (e : PyExc)
    (save sF sR : Except PyExc Unit) (nid fid : String)
    (folder : FolderStructure) (rn rf : String → Except PyExc Bool)
    (fuel : Nat) :
    (create_note st note p now (.error e) save).1 = st ∧
    delete_note st nid (.error e) save = (st, .ok false) ∧
    (update_note st nid note now (.error e) save).1 = st ∧
    create_folder st folder now (.error e) sF sR = (st, .error e) ∧
    (note.title ≠ "" → note.content ≠ "" →
      (create_note st note p now (.error e) save).2 = .error e) ∧
    update_folder st fid folder (.error e) save = (st, .ok false) ∧
    (rf fid = .error e →
      ((look st.folders fid).isSome → childrenOf st fid = [] →
        delete_folderGo rn rf save (fuel + 1) st fid =
          some (st, .ok false)) ∧
      (∀ fl st' r, delete_folderGo rn rf save fl st fid = some (st', r) →
        r = .ok false ∧ look st'.folders fid = look st.folders fid)) := by
  refine ⟨?_, ?_, ?_, rfl, ?_, ?_, ?_⟩
  · unfold create_note
    split_ifs <;> rfl
  · unfold delete_note
    cases hl : look st.notes nid <;> simp
  · unfold update_note
    split_ifs
    · rfl
    · rfl
    · cases hl : look st.notes nid <;> simp
  · intro h1 h2
    simp [create_note, h1, h2]
  · unfold update_folder
    cases look st.folders fid with
    | none => rfl
    | some r => rfl
  · intro hrf
    constructor
    · intro hm hc
      obtain ⟨frec, hfrec⟩ := Option.isSome_iff_exists.mp hm
      rw [delete_folderGo]
      simp only [hfrec, hc, delNotesLoop, List.foldl_nil, delSubsLoop, hrf]
    · intro fl st' r hres
      exact ⟨delete_folderGo_remote_error_result rn rf save fid e hrf
          fl st st' r hres,
        delete_folderGo_keeps_folders_entry rn rf save fid e hrf
          fl st fid st' r hres⟩

/-- **C7** witness: a failing remote create leaves a concrete one-note
state untouched and re-raises the remote error; a failing remote folder
update returns `False` with the state untouched; a failing remote folder
delete on a childless folder leaves the state untouched with `False`; and
on a folder `"F"` with subfolder `"C"` whose cascade succeeds but whose
own remote delete fails, the result is `False` and `"F"`'s registry entry
survives (only `"C"`'s remote-confirmed deletion is applied). -/
theorem C7_remote_failure_leaves_state_unchanged_witness :
    (create_note
        ⟨[("n0", ⟨"n0", "Old", "t0", none, none, none, none⟩)], [], [], ⟨[]⟩⟩
        ⟨"Standup", "agenda", none, none, none⟩ none "t1"
        (.error (.exception "Service temporarily unavailable")) (.ok ())).1 =
      ⟨[("n0", ⟨"n0", "Old", "t0", none, none, none, none⟩)], [], [], ⟨[]⟩⟩ ∧
    (create_note
        ⟨[("n0", ⟨"n0", "Old", "t0", none, none, none, none⟩)], [], [], ⟨[]⟩⟩
        ⟨"Standup", "agenda", none, none, none⟩ none "t1"
        (.error (.exception "Service temporarily unavailable")) (.ok ())).2 =
      .error (.exception "Service temporarily unavailable") ∧
    update_folder
        ⟨[], [("F", ⟨"F", "Docs", none, "t0", none⟩)], [], ⟨[]⟩⟩ "F"
        ⟨"G", none, none⟩ (.error (.exception "boom")) (.ok ()) =
      (⟨[], [("F", ⟨"F", "Docs", none, "t0", none⟩)], [], ⟨[]⟩⟩, .ok false) ∧
    delete_folderGo (fun _ => .ok true)
        (fun x => if x = "F" then .error (.exception "net down") else .ok true)
        (.ok ()) 1
        ⟨[], [("F", ⟨"F", "Docs", none, "t0", none⟩)], [], ⟨[]⟩⟩ "F" =
      some (⟨[], [("F", ⟨"F", "Docs", none, "t0", none⟩)], [], ⟨[]⟩⟩,
        .ok false) ∧
    look [("F", (⟨"F", "Docs", none, "t0", none⟩ : FolderRec))] "F" =
      look [("F", (⟨"F", "Docs", none, "t0", none⟩ : FolderRec)),
            ("C", ⟨"C", "Sub", none, "t0", some "F"⟩)] "F" := by
  have hA := C7_remote_failure_leaves_state_unchanged
    ⟨[("n0", ⟨"n0", "Old", "t0", none, none, none, none⟩)], [], [], ⟨[]⟩⟩
    ⟨"Standup", "agenda", none, none, none⟩ none "t1"
    (.exception "Service temporarily unavailable") (.ok ()) (.ok ()) (.ok ())
    "n0" "F" ⟨"F2", none, none⟩ (fun _ => .ok true) (fun _ => .ok true) 0
  have hB := C7_remote_failure_leaves_state_unchanged
    ⟨[], [("F", ⟨"F", "Docs", none, "t0", none⟩)], [], ⟨[]⟩⟩
    ⟨"Standup", "agenda", none, none, none⟩ none "t1"
    (.exception "boom") (.ok ()) (.ok ()) (.ok ())
    "n0" "F" ⟨"G", none, none⟩ (fun _ => .ok true) (fun _ => .ok true) 0
  have hC := C7_remote_failure_leaves_state_unchanged
    ⟨[], [("F", ⟨"F", "Docs", none, "t0", none⟩)], [], ⟨[]⟩⟩
    ⟨"Standup", "agenda", none, none, none⟩ none "t1"
    (.exception "net down") (.ok ()) (.ok ()) (.ok ())
    "n0" "F" ⟨"G", none, none⟩ (fun _ => .ok true)
    (fun x => if x = "F" then .error (.exception "net down") else .ok true) 0
  have hD := C7_remote_failure_leaves_state_unchanged
    ⟨[], [("F", ⟨"F", "Docs", none, "t0", none⟩),
          ("C", ⟨"C", "Sub", none, "t0", some "F"⟩)], [("F", ["C"])], ⟨[]⟩⟩
    ⟨"Standup", "agenda", none, none, none⟩ none "t1"
    (.exception "net down") (.ok ()) (.ok ()) (.ok ())
    "n0" "F" ⟨"G", none, none⟩ (fun _ => .ok true)
    (fun x => if x = "F" then .error (.exception "net down") else .ok true) 1
  refine ⟨hA.1, hA.2.2.2.2.1 (by decide) (by decide), hB.2.2.2.2.2.1, ?_, ?_⟩
  · exact (hC.2.2.2.2.2.2 rfl).1 (by decide) rfl
  · exact ((hD.2.2.2.2.2.2 rfl).2 2
      ⟨[], [("F", ⟨"F", "Docs", none, "t0", none⟩)], [("F", [])], ⟨[]⟩⟩
      (.ok false) rfl).2

/-- **C8** (counterexample): there is no distinct "partially applied"
error.  When the remote delete succeeds but persisting the registry fails,
`delete_note` returns plain `False` — the very value it returns when the
remote call itself fails — after the in-memory registry has already
dropped the note; the divergence between remote state and local mirror is
silently swallowed.  (`PersistenceError` exists nowhere in the code.) -/
theorem C8_counterexample :
    (delete_note
        ⟨[("n1", ⟨"n1", "Standup", "t0", some "A", none, none, none⟩)], [], [], ⟨[]⟩⟩
        "n1" (.ok true) (.error (.exception "disk full"))).2 = .ok false ∧
    (delete_note
        ⟨[("n1", ⟨"n1", "Standup", "t0", some "A", none, none, none⟩)], [], [], ⟨[]⟩⟩
        "n1" (.ok true) (.error (.exception "disk full"))).1.notes = [] ∧
    (delete_note
        ⟨[("n1", ⟨"n1", "Standup", "t0", some "A", none, none, none⟩)], [], [], ⟨[]⟩⟩
        "n1" (.error (.exception "connection refused")) (.ok ())).2 = .ok false := by
  refine ⟨rfl, rfl, rfl⟩

/-- **C8** (amended): a persistence failure after a successful remote
mutation is not surfaced as a distinct error: `delete_note` catches it and
returns `False`, indistinguishable from a remote failure, with the
in-memory registry already mutated; `create_note` propagates the raw
persistence exception itself (which the retry decorator then treats like
any other failure).  No `PersistenceError` class exists. -/
theorem C8_persistence_failure_not_distinct (st : RegState) (nid : String)
    (e e' : PyExc) (note : MeetingNote) (p : Option String) (now id' : String)
    (save : Except PyExc Unit)
    (hmem : (look st.notes nid).isSome)
    (ht : note.title ≠ "") (hc : note.content ≠ "") :
    (delete_note st nid (.ok true) (.error e)).2 = .ok false ∧
    (delete_note st nid (.ok true) (.error e)).1.notes =
      dictErase st.notes nid ∧
    (delete_note st nid (.error e') save).2 = .ok false ∧
    (create_note st note p now (.ok id') (.error e)).2 = .error e := by
  obtain ⟨r, hr⟩ := Option.isSome_iff_exists.mp hmem
  refine ⟨?_, ?_, ?_, ?_⟩
  · simp [delete_note, hr]
  · simp [delete_note, hr]
  · simp [delete_note, hr]
  · simp [create_note, ht, hc]

/-- **C8** witness: the amended behaviour on a concrete one-note state. -/
theorem C8_persistence_failure_not_distinct_witness :
    (delete_note
        ⟨[("n2", ⟨"n2", "Retro", "t0", none, none, none, none⟩)], [], [], ⟨[]⟩⟩
        "n2" (.ok true) (.error (.exception "disk full"))).2 = .ok false ∧
    (delete_note
        ⟨[("n2", ⟨"n2", "Retro", "t0", none, none, none, none⟩)], [], [], ⟨[]⟩⟩
        "n2" (.ok true) (.error (.exception "disk full"))).1.notes =
      dictErase [("n2", ⟨"n2", "Retro", "t0", none, none, none, none⟩)] "n2" ∧
    (delete_note
        ⟨[("n2", ⟨"n2", "Retro", "t0", none, none, none, none⟩)], [], [], ⟨[]⟩⟩
        "n2" (.error (.exception "boom")) (.ok ())).2 = .ok false ∧
    (create_note
        ⟨[("n2", ⟨"n2", "Retro", "t0", none, none, none, none⟩)], [], [], ⟨[]⟩⟩
        ⟨"Plan", "items", none, none, none⟩ none "t1" (.ok "n3")
        (.error (.exception "disk full"))).2 =
      .error (.exception "disk full") :=
  C8_persistence_failure_not_distinct
    ⟨[("n2", ⟨"n2", "Retro", "t0", none, none, none, none⟩)], [], [], ⟨[]⟩⟩
    "n2" (.exception "disk full") (.exception "boom")
    ⟨"Plan", "items", none, none, none⟩ none "t1" "n3" (.ok ())
    (by decide) (by decide) (by decide)

/-- **C1** (the code evaluated at the failing input): starting from a
registry in which folder `"P"` contains folder `"A"`, `"A"` contains
subfolder `"B"` (via the hierarchy map) and note `"n1"` (via the note's
`parent_id`), deleting `"A"` with every remote call succeeding removes
`"A"` and `"B"` from the folders registry and `"A"` from `"P"`'s child
list — but the descendant note `"n1"` REMAINS in the notes registry,
because `delete_folder`'s "delete all notes in the folder" loop iterates
`folder_hierarchy[folder_id]`, which `create_note` never populates with
note ids (it only ever holds subfolder ids, contradicting the function's
own docstring "Delete a folder and all its contents" and the comment
"First, delete all notes in the folder"). -/
theorem C1_delete_folder_leaves_descendant_note :
    delete_folderGo (fun _ => .ok true) (fun _ => .ok true) (.ok ()) 3
      ⟨[("n1", ⟨"n1", "Standup", "t0", some "A", none, none, none⟩)],
       [("P", ⟨"P", "Parent", none, "t0", none⟩),
        ("A", ⟨"A", "Area", none, "t0", some "P"⟩),
        ("B", ⟨"B", "Sub", none, "t0", some "A"⟩)],
       [("P", ["A"]), ("A", ["B"])], ⟨[]⟩⟩ "A" =
      some (⟨[("n1", ⟨"n1", "Standup", "t0", some "A", none, none, none⟩)],
             [("P", ⟨"P", "Parent", none, "t0", none⟩)],
             [("P", [])], ⟨[]⟩⟩, .ok true) ∧
    look [("n1", (⟨"n1", "Standup", "t0", some "A", none, none, none⟩ : NoteRec))]
      "n1" ≠ none ∧
    look [("P", (⟨"P", "Parent", none, "t0", none⟩ : FolderRec))] "A" = none ∧
    look [("P", (⟨"P", "Parent", none, "t0", none⟩ : FolderRec))] "B" = none := by
  refine ⟨rfl, by decide, by decide, by decide⟩

/-- **C9** (counterexample): `create_folder` performs no cycle check.  When
the remote call returns an id equal to the folder's declared parent (here
`"A"`), the folder is recorded with itself on its own parent chain — the
call succeeds, returning the id, and the resulting registry is cyclic;
nothing is refused. -/
theorem C9_counterexample :
    (create_folder ⟨[], [], [], ⟨[]⟩⟩ ⟨"Self", none, some "A"⟩ "t0"
        (.ok "A") (.ok ()) (.ok ())).2 = .ok "A" ∧
    (create_folder ⟨[], [], [], ⟨[]⟩⟩ ⟨"Self", none, some "A"⟩ "t0"
        (.ok "A") (.ok ()) (.ok ())).1.folders =
      [("A", ⟨"A", "Self", none, "t0", some "A"⟩)] ∧
    iterParent [("A", ⟨"A", "Self", none, "t0", some "A"⟩)] 1 "A" = some "A" ∧
    ¬ AcyclicF [("A", ⟨"A", "Self", none, "t0", some "A"⟩)] := by
  refine ⟨rfl, rfl, rfl, by decide⟩

/-- **C9** (amended): `create_folder` refuses nothing — it records whatever
id the remote returns together with the declared parent (the
counterexample shows a cycle when the remote id collides with the parent
chain).  Acyclicity of the registry IS preserved whenever the
remote-assigned id is genuinely fresh: not an existing key, not referenced
as any existing record's parent, and different from the declared parent. -/
theorem C9_create_folder_fresh_preserves_acyclicity (st : RegState)
    (folder : FolderStructure) (now fid : String) (sF sR : Except PyExc Unit)
    (hA : AcyclicF st.folders)
    (hfresh : look st.folders fid = none)
    (hnoref : ∀ pr ∈ st.folders, (pr.2).parent_id ≠ some fid)
    (hparent : folder.parent_id ≠ some fid) :
    AcyclicF (create_folder st folder now (.ok fid) sF sR).1.folders := by
  have hfold : (create_folder st folder now (.ok fid) sF sR).1.folders =
      st.folders ++
        [(fid, ⟨fid, folder.name, folder.description, now, folder.parent_id⟩)] := by
    rw [← dictSet_of_look_none hfresh]
    cases hp : folder.parent_id with
    | none => cases sF <;> cases sR <;> simp [create_folder, hp]
    | some p =>
      by_cases hpe : p = "" <;> cases sF <;> cases sR <;>
        simp [create_folder, hp, hpe]
  rw [hfold]
  intro i hi k _ hkpos hcyc
  by_cases hif : i = fid
  · subst hif
    obtain ⟨k', rfl⟩ : ∃ k', k = k' + 1 := ⟨k - 1, by omega⟩
    have hlook : look
        (st.folders ++
          [(i, (⟨i, folder.name, folder.description, now, folder.parent_id⟩
            : FolderRec))]) i =
        some ⟨i, folder.name, folder.description, now, folder.parent_id⟩ :=
      look_concat_self hfresh _
    simp only [iterParent, hlook] at hcyc
    cases hpp : folder.parent_id with
    | none => simp [hpp] at hcyc
    | some p =>
      have hpf : p ≠ i := fun h => hparent (by rw [hpp, h])
      simp only [hpp] at hcyc
      rw [iterParent_concat_ne hnoref k' p hpf] at hcyc
      exact hpf (iterParent_reaches_fresh hnoref k' p hcyc)
  · have hikey : i ∈ st.folders.map Prod.fst := by
      simp only [List.map_append, List.map_cons, List.map_nil,
        List.mem_append, List.mem_cons, List.not_mem_nil, or_false] at hi
      rcases hi with h | h
      · exact h
      · exact absurd h hif
    rw [iterParent_concat_ne hnoref k i hif] at hcyc
    exact iterParent_acyclic_all hA i (look_isSome_of_mem_keys hikey) k
      hkpos hcyc

/-- **C9** witness: creating folder `"B"` under root `"A"` with a fresh
remote id keeps the registry acyclic. -/
theorem C9_create_folder_fresh_preserves_acyclicity_witness :
    AcyclicF (create_folder
        ⟨[], [("A", ⟨"A", "Root", none, "t0", none⟩)], [], ⟨[]⟩⟩
        ⟨"Child", none, some "A"⟩ "t1" (.ok "B") (.ok ()) (.ok ())).1.folders :=
  C9_create_folder_fresh_preserves_acyclicity
    ⟨[], [("A", ⟨"A", "Root", none, "t0", none⟩)], [], ⟨[]⟩⟩
    ⟨"Child", none, some "A"⟩ "t1" "B" (.ok ()) (.ok ())
    (by decide) (by decide) (by decide) (by decide)

/-- **C10**: on an acyclic registry (with well-formed record ids and no
empty-string parent references), `get_folder_path` terminates within
`fs.length + 1` loop iterations and returns the chain of folder records
from the root down to `folder_id`: consecutive records are parent-linked,
the first record's parent is absent from the registry (a root), and the
last record is the record of `folder_id` itself (the empty path exactly
when `folder_id` is unregistered).  Conversely, acyclicity is required for
termination: a parent-chain cycle through `folder_id` makes the loop run
past any iteration budget. -/
theorem C10_get_folder_path_terminates_and_is_correct
    (fs : List (String × FolderRec)) (fid : String) :
    (AcyclicF fs → (∀ p ∈ fs, (p.2).id = p.1) →
     (∀ p ∈ fs, (p.2).parent_id ≠ some "") → fid ≠ "" →
      ∃ path, get_folder_path fs fid = some path ∧
        List.Chain' (fun a b => b.parent_id = some a.id) path ∧
        (∀ r, path.head? = some r → ∀ p, r.parent_id = some p →
          look fs p = none) ∧
        (match look fs fid with
         | none => path = []
         | some f => path.getLast? = some f)) ∧
    ((∀ p ∈ fs, (p.2).parent_id ≠ some "") → fid ≠ "" →
      ∀ k, 0 < k → iterParent fs k fid = some fid →
      ∀ fuel acc, get_folder_pathGo fs fuel (some fid) acc = none) := by
  constructor
  · intro hA hwf hne hfid
    cases hres : get_folder_path fs fid with
    | none =>
      exfalso
      unfold get_folder_path at hres
      have hchain := get_folder_pathGo_none_chain fs (fs.length + 1) fid [] hres
      obtain ⟨j, k, hj, hkpos, hkle, hcyc⟩ :=
        iterParent_cycle_of_chain fs fid (fun t ht => hchain t (by omega))
      exact iterParent_acyclic_all hA j hj k hkpos hcyc
    | some path =>
      obtain ⟨hch, hhead, hmatch⟩ :=
        get_folder_pathGo_spec fs hwf hne (fs.length + 1) (some fid) path hres
      refine ⟨path, rfl, hch, hhead, ?_⟩
      simpa [hfid] using hmatch
  · intro hne hfid k hk hcyc fuel acc
    exact get_folder_pathGo_none_of_cycle fs hne fuel fid acc hfid
      (iterParent_cycle_chain_all hk hcyc)

/-- **C10** witness: on the acyclic two-folder registry the path to `"B"`
exists with the stated shape, and on a self-parented registry the loop
exhausts any budget. -/
theorem C10_get_folder_path_witness :
    (∃ path, get_folder_path
        [("A", (⟨"A", "Root", none, "t0", none⟩ : FolderRec)),
         ("B", ⟨"B", "Child", none, "t0", some "A"⟩)] "B" = some path ∧
      List.Chain' (fun a b => b.parent_id = some a.id) path ∧
      (∀ r, path.head? = some r → ∀ p, r.parent_id = some p →
        look [("A", (⟨"A", "Root", none, "t0", none⟩ : FolderRec)),
              ("B", ⟨"B", "Child", none, "t0", some "A"⟩)] p = none) ∧
      (match look [("A", (⟨"A", "Root", none, "t0", none⟩ : FolderRec)),
                   ("B", ⟨"B", "Child", none, "t0", some "A"⟩)] "B" with
       | none => path = []
       | some f => path.getLast? = some f)) ∧
    get_folder_pathGo [("A", (⟨"A", "Loop", none, "t0", some "A"⟩ : FolderRec))] 5
      (some "A") [] = none :=
  ⟨(C10_get_folder_path_terminates_and_is_correct
      [("A", ⟨"A", "Root", none, "t0", none⟩),
       ("B", ⟨"B", "Child", none, "t0", some "A"⟩)] "B").1
      (by decide) (by decide) (by decide) (by decide),
   (C10_get_folder_path_terminates_and_is_correct
      [("A", ⟨"A", "Loop", none, "t0", some "A"⟩)] "A").2
      (by decide) (by decide) 1 (by decide) rfl 5 []⟩
